import Mathlib

/-
  Shallow embedding of the focus-session engine of src/src/store.ts.

  Timestamps are modelled as `Int` milliseconds since the epoch: the source
  stores ISO strings and always converts back with `new Date(x).getTime()`
  before doing arithmetic, so the string round-trip is the identity on the
  millisecond value.  `Date.now()` and `crypto.randomUUID()` are modelled as
  explicit `now` / `freshId` arguments to each action.
-/

namespace Calendar

structure Task where
  id : String
  projectId : Option String
  title : String
  date : Option String
  deadline : Option String
  deadlineHistory : List String
  completed : Bool
  startedAt : Option String
deriving Repr, DecidableEq

structure TimeEntry where
  id : String
  taskId : String
  startedAt : Int
  endedAt : Int
  duration : Int
deriving Repr, DecidableEq

inductive PomodoroPhase where
  | idle
  | work
  | «break»
deriving Repr, DecidableEq

structure PomodoroState where
  taskId : Option String
  phase : PomodoroPhase
  sessionStart : Option Int
  sessionsCompleted : Nat
  paused : Bool
  pausedElapsed : Int
deriving Repr, DecidableEq

/-- The slice of the zustand `EpochState` the session engine reads and writes. -/
structure EpochState where
  tasks : List Task
  timeEntries : List TimeEntry
  pomodoro : PomodoroState
deriving Repr, DecidableEq

/-- The pomodoro record of the store's initial state. -/
def initPomodoro : PomodoroState :=
  { taskId := none, phase := .idle, sessionStart := none,
    sessionsCompleted := 0, paused := false, pausedElapsed := 0 }

/-- `startPomodoro` (store.ts lines 263-265). -/
def startPomodoro (now : Int) (taskId : Option String) (s : EpochState) : EpochState :=
  { s with pomodoro :=
      { taskId := taskId, phase := .work, sessionStart := some now,
        sessionsCompleted := s.pomodoro.sessionsCompleted,
        paused := false, pausedElapsed := 0 } }

/-- `pausePomodoro` (store.ts lines 267-283): a pause/resume toggle.
    Note the pause branch does not touch `sessionStart`. -/
def pausePomodoro (now : Int) (s : EpochState) : EpochState :=
  let pomodoro := s.pomodoro
  if pomodoro.phase = .idle then s
  else if pomodoro.paused then
    -- Resume: shift sessionStart forward by the time we were paused
    let elapsed := pomodoro.pausedElapsed
    let newStart := now - elapsed
    { s with pomodoro := { pomodoro with paused := false, sessionStart := some newStart } }
  else
    -- Pause: record how many ms have elapsed so far
    let elapsed :=
      match pomodoro.sessionStart with
      | some t => now - t
      | none => 0
    { s with pomodoro := { pomodoro with paused := true, pausedElapsed := elapsed } }

/-- `stopPomodoro` (store.ts lines 285-294). -/
def stopPomodoro (now : Int) (freshId : String) (s : EpochState) : EpochState :=
  let pomodoro := s.pomodoro
  let entries :=
    match pomodoro.phase, pomodoro.sessionStart, pomodoro.taskId with
    | .work, some sessionStart, some taskId =>
        let duration := now - sessionStart
        if duration ≥ 5000 then
          s.timeEntries ++
            [{ id := freshId, taskId := taskId, startedAt := sessionStart,
               endedAt := now, duration := duration }]
        else s.timeEntries
    | _, _, _ => s.timeEntries
  { s with
      timeEntries := entries,
      pomodoro :=
        { taskId := none, phase := .idle, sessionStart := none,
          sessionsCompleted := pomodoro.sessionsCompleted,
          paused := false, pausedElapsed := 0 } }

/-- `completeWorkSession` (store.ts lines 296-308). -/
def completeWorkSession (now : Int) (freshId : String) (s : EpochState) : EpochState :=
  let pomodoro := s.pomodoro
  match pomodoro.phase, pomodoro.sessionStart with
  | .work, some sessionStart =>
      let duration := now - sessionStart
      let newEntries :=
        match pomodoro.taskId with
        | some taskId =>
            s.timeEntries ++
              [{ id := freshId, taskId := taskId, startedAt := sessionStart,
                 endedAt := now, duration := duration }]
        | none => s.timeEntries  -- eye rest: no time entry
      { s with
          pomodoro :=
            { pomodoro with
              sessionStart := none,
              sessionsCompleted := pomodoro.sessionsCompleted + 1,
              phase := PomodoroPhase.«break» },
          timeEntries := newEntries }
  | _, _ => s

/-- `startBreak` (store.ts lines 310-312). -/
def startBreak (now : Int) (s : EpochState) : EpochState :=
  { s with pomodoro := { s.pomodoro with sessionStart := some now, phase := PomodoroPhase.«break» } }

/-- `skipBreak` (store.ts lines 314-316): the spec's `completeBreak`. -/
def skipBreak (now : Int) (s : EpochState) : EpochState :=
  { s with pomodoro := { s.pomodoro with phase := .work, sessionStart := some now } }

/-- `getTaskTime` (store.ts lines 318-326).  The in-flight branch tests only
    phase, target and a non-null `sessionStart`; it never looks at `paused`. -/
def getTaskTime (now : Int) (taskId : String) (s : EpochState) : Int :=
  let entries := s.timeEntries.filter (fun e => e.taskId == taskId)
  let running := s.pomodoro
  let extra : Int :=
    match running.sessionStart with
    | some sessionStart =>
        if running.phase = .work ∧ running.taskId = some taskId then
          now - sessionStart
        else 0
    | none => 0
  entries.foldl (fun acc e => acc + e.duration) 0 + extra

/-- `getProjectTime` (store.ts lines 328-331): ledger entries only, no
    in-flight contribution. -/
def getProjectTime (projectId : String) (s : EpochState) : Int :=
  let taskIds := (s.tasks.filter (fun t => t.projectId == some projectId)).map (fun t => t.id)
  (s.timeEntries.filter (fun e => taskIds.contains e.taskId)).foldl
    (fun acc e => acc + e.duration) 0

/-- Modelled from the spec: "sum of duration over ledger entries with
    taskId = id" — the ledger-only part of the spec's `timeForTask`. -/
def taskLedgerSum (taskId : String) (s : EpochState) : Int :=
  ((s.timeEntries.filter (fun e => e.taskId == taskId)).map (fun e => e.duration)).sum

/-- Session states reachable from the initial `Idle` record by the store's
    session-machine actions (the ledger starts empty; the task list is
    irrelevant to the session machine, so it is arbitrary). -/
inductive Reachable : EpochState → Prop where
  | init (tasks : List Task) :
      Reachable { tasks := tasks, timeEntries := [], pomodoro := initPomodoro }
  | start (now : Int) (taskId : Option String) (s : EpochState) :
      Reachable s → Reachable (startPomodoro now taskId s)
  | pauseOrResume (now : Int) (s : EpochState) :
      Reachable s → Reachable (pausePomodoro now s)
  | stop (now : Int) (freshId : String) (s : EpochState) :
      Reachable s → Reachable (stopPomodoro now freshId s)
  | completeWork (now : Int) (freshId : String) (s : EpochState) :
      Reachable s → Reachable (completeWorkSession now freshId s)
  | startBreakStep (now : Int) (s : EpochState) :
      Reachable s → Reachable (startBreak now s)
  | completeBreak (now : Int) (s : EpochState) :
      Reachable s → Reachable (skipBreak now s)

/-- Run a list of (pauseTime, resumeTime) toggle pairs through `pausePomodoro`. -/
def runToggles (s : EpochState) : List (Int × Int) → EpochState
  | [] => s
  | (p, r) :: rest => runToggles (pausePomodoro r (pausePomodoro p s)) rest

/-- Total paused time of a toggle schedule. -/
def gapSum (ps : List (Int × Int)) : Int :=
  (ps.map (fun pr => pr.2 - pr.1)).sum

/-- Modelled from the spec: the sum of the "active" (non-paused) sub-intervals
    of a session running from `start` to `stop` with the given pause/resume
    pairs. -/
def activeTime (start stop : Int) : List (Int × Int) → Int
  | [] => stop - start
  | (p, r) :: rest => (p - start) + activeTime r stop rest

/-- Empty store with the initial pomodoro record. -/
def emptyState : EpochState :=
  { tasks := [], timeEntries := [], pomodoro := initPomodoro }

/-- A running (unpaused) work session on task "t1" anchored at time 0. -/
def runningWorkState : EpochState :=
  { tasks := [], timeEntries := [],
    pomodoro := { taskId := some "t1", phase := .work, sessionStart := some 0,
                  sessionsCompleted := 0, paused := false, pausedElapsed := 0 } }

/-- A running work session on "t1" after five completed sessions. -/
def stopCounterState : EpochState :=
  { tasks := [], timeEntries := [],
    pomodoro := { taskId := some "t1", phase := .work, sessionStart := some 0,
                  sessionsCompleted := 5, paused := false, pausedElapsed := 0 } }

/-- The session on "t1" started at 0 and paused at 10000. -/
def pausedWorkState : EpochState :=
  pausePomodoro 10000 (startPomodoro 0 (some "t1") emptyState)

/-- The session on "t1" started at 0 and paused at 1000 (before the 5000 ms
    minimum was reached). -/
def earlyPausedState : EpochState :=
  pausePomodoro 1000 (startPomodoro 0 (some "t1") emptyState)

/-- An untracked eye-rest work session (no target task) anchored at 0. -/
def eyeRestWorkState : EpochState :=
  startPomodoro 0 none emptyState

/-- A task of project "p1". -/
def projTask : Task :=
  { id := "t1", projectId := some "p1", title := "DB schema design",
    date := none, deadline := none, deadlineHistory := [],
    completed := false, startedAt := none }

/-- Project "p1" with one task, a 7000 ms ledger entry for it, and an idle
    session. -/
def projIdleState : EpochState :=
  { tasks := [projTask],
    timeEntries := [{ id := "e0", taskId := "t1", startedAt := 0, endedAt := 7000,
                      duration := 7000 }],
    pomodoro := initPomodoro }

/-- Project "p1" with one task and a work session running on that task. -/
def projRunningState : EpochState :=
  { tasks := [projTask], timeEntries := [],
    pomodoro := { taskId := some "t1", phase := .work, sessionStart := some 0,
                  sessionsCompleted := 0, paused := false, pausedElapsed := 0 } }

/- ───────────────────────── helper lemmas ───────────────────────── -/

theorem foldl_duration_eq_sum (l : List TimeEntry) (acc : Int) :
    l.foldl (fun acc e => acc + e.duration) acc = acc + (l.map (fun e => e.duration)).sum := by
  induction l generalizing acc with
  | nil => simp
  | cons e t ih => simp [List.foldl_cons, ih (acc + e.duration), add_assoc]

/-- `getTaskTime` when a work session on the queried task is in flight: the
    extra term is `now - anchor`, whether or not the session is paused. -/
theorem getTaskTime_inflight (now : Int) (tid : String) (s : EpochState) (a : Int)
    (hw : s.pomodoro.phase = .work) (ht : s.pomodoro.taskId = some tid)
    (ha : s.pomodoro.sessionStart = some a) :
    getTaskTime now tid s = taskLedgerSum tid s + (now - a) := by
  simp [getTaskTime, taskLedgerSum, foldl_duration_eq_sum, ha, hw, ht]

/-- `getTaskTime` with no in-flight contribution: the result is exactly the
    ledger sum. -/
theorem getTaskTime_no_extra (now : Int) (tid : String) (s : EpochState)
    (h : s.pomodoro.phase ≠ .work ∨ s.pomodoro.taskId ≠ some tid ∨
         s.pomodoro.sessionStart = none) :
    getTaskTime now tid s = taskLedgerSum tid s := by
  rcases h with h | h | h
  · cases hss : s.pomodoro.sessionStart <;>
      simp [getTaskTime, taskLedgerSum, foldl_duration_eq_sum, hss, h]
  · cases hss : s.pomodoro.sessionStart <;>
      simp [getTaskTime, taskLedgerSum, foldl_duration_eq_sum, hss, h]
  · simp [getTaskTime, taskLedgerSum, foldl_duration_eq_sum, h]

/-- The ledger sum only depends on the ledger. -/
theorem taskLedgerSum_congr (tid : String) (s₁ s₂ : EpochState)
    (h : s₁.timeEntries = s₂.timeEntries) :
    taskLedgerSum tid s₁ = taskLedgerSum tid s₂ := by
  simp [taskLedgerSum, h]

/-- Appending one ledger entry for the queried task adds its duration to the
    ledger sum. -/
theorem taskLedgerSum_append (tid : String) (s₁ s₂ : EpochState) (e : TimeEntry)
    (h : s₂.timeEntries = s₁.timeEntries ++ [e]) (he : e.taskId = tid) :
    taskLedgerSum tid s₂ = taskLedgerSum tid s₁ + e.duration := by
  simp [taskLedgerSum, h, List.filter_append, he]

/-- `stopPomodoro` appends the wall-clock entry when the session is an
    anchored work session on a task and `now - anchor ≥ 5000`. -/
theorem stop_appends (now : Int) (freshId : String) (s : EpochState) (a : Int) (tid : String)
    (hw : s.pomodoro.phase = .work) (ha : s.pomodoro.sessionStart = some a)
    (ht : s.pomodoro.taskId = some tid) (hd : 5000 ≤ now - a) :
    (stopPomodoro now freshId s).timeEntries =
      s.timeEntries ++ [{ id := freshId, taskId := tid, startedAt := a,
                          endedAt := now, duration := now - a }] := by
  obtain ⟨tasks, entries, p⟩ := s
  obtain ⟨ptid, pph, pss, psc, ppd, ppe⟩ := p
  simp only at hw ha ht
  subst hw; subst ha; subst ht
  simp [stopPomodoro, hd]

/-- `stopPomodoro` appends nothing when the elapsed wall-clock span is below
    the 5000 ms minimum. -/
theorem stop_no_append_small (now : Int) (freshId : String) (s : EpochState) (a : Int)
    (tid : String)
    (hw : s.pomodoro.phase = .work) (ha : s.pomodoro.sessionStart = some a)
    (ht : s.pomodoro.taskId = some tid) (hd : now - a < 5000) :
    (stopPomodoro now freshId s).timeEntries = s.timeEntries := by
  obtain ⟨tasks, entries, p⟩ := s
  obtain ⟨ptid, pph, pss, psc, ppd, ppe⟩ := p
  simp only at hw ha ht
  subst hw; subst ha; subst ht
  simp [stopPomodoro, not_le.mpr hd]

/-- `stopPomodoro` appends nothing outside an anchored, targeted work
    session. -/
theorem stop_no_append_other (now : Int) (freshId : String) (s : EpochState)
    (h : s.pomodoro.phase ≠ .work ∨ s.pomodoro.sessionStart = none ∨
         s.pomodoro.taskId = none) :
    (stopPomodoro now freshId s).timeEntries = s.timeEntries := by
  obtain ⟨tasks, entries, p⟩ := s
  obtain ⟨ptid, pph, pss, psc, ppd, ppe⟩ := p
  simp only at h
  rcases h with h | h | h
  · cases pph <;> cases pss <;> cases ptid <;> simp_all [stopPomodoro]
  · subst h; cases pph <;> cases ptid <;> simp [stopPomodoro]
  · subst h; cases pph <;> cases pss <;> simp [stopPomodoro]

/- ───────────────────────── claim theorems ───────────────────────── -/

/-- Claim C1 (amended): for every state, `stopPomodoro` resets the session to
Idle with `taskId = none`, `sessionStart = none`, `paused = false` and
`pausedElapsed = 0`, but it preserves `sessionsCompleted` instead of
resetting it to 0. -/
theorem stop_resets_session_preserves_counter (now : Int) (freshId : String) (s : EpochState) :
    (stopPomodoro now freshId s).pomodoro =
      { taskId := none, phase := .idle, sessionStart := none,
        sessionsCompleted := s.pomodoro.sessionsCompleted,
        paused := false, pausedElapsed := 0 } := rfl

/-- Claim C1 counterexample: stopping a session with `sessionsCompleted = 5`
leaves the counter at 5, not 0 as the claim states. -/
theorem stop_counter_not_reset_cex :
    stopCounterState.pomodoro.sessionsCompleted = 5 ∧
    (stopPomodoro 10000 "e1" stopCounterState).pomodoro.sessionsCompleted = 5 ∧
    (stopPomodoro 10000 "e1" stopCounterState).pomodoro.sessionsCompleted ≠ 0 := by
  decide

/-- Claim C2 (amended): `getTaskTime id` is the ledger sum for `id` plus an
in-flight term `now - anchor` whenever the session is in Work phase with
`taskId = id` and a non-null anchor — whether or not it is paused
(`pausedElapsed` is never consulted); in every other case (Idle, Break,
different or missing target, or null anchor) it is exactly the ledger sum. -/
theorem getTaskTime_characterization (now : Int) (tid : String) (s : EpochState) :
    (∀ a, s.pomodoro.phase = .work → s.pomodoro.taskId = some tid →
      s.pomodoro.sessionStart = some a →
      getTaskTime now tid s = taskLedgerSum tid s + (now - a)) ∧
    (s.pomodoro.phase ≠ .work ∨ s.pomodoro.taskId ≠ some tid ∨
        s.pomodoro.sessionStart = none →
      getTaskTime now tid s = taskLedgerSum tid s) :=
  ⟨fun a hw ht ha => getTaskTime_inflight now tid s a hw ht ha,
   fun h => getTaskTime_no_extra now tid s h⟩

/-- Claim C2 witness: the characterization applied to a running session on
"t1" anchored at 0, and to the empty idle store. -/
theorem getTaskTime_characterization_witness :
    getTaskTime 30000 "t1" runningWorkState = taskLedgerSum "t1" runningWorkState + (30000 - 0) ∧
    getTaskTime 30000 "t1" emptyState = taskLedgerSum "t1" emptyState :=
  ⟨(getTaskTime_characterization 30000 "t1" runningWorkState).1 0
      (by decide) (by decide) (by decide),
   (getTaskTime_characterization 30000 "t1" emptyState).2 (Or.inl (by decide))⟩

/-- Claim C2 counterexample: in a paused work session on "t1" (paused at
10000 with `pausedElapsed = 10000`, anchor still 0), `getTaskTime` keeps
growing with `now` — it returns 30000 and then 31000, not the frozen
`pausedElapsed` of 10000. -/
theorem getTaskTime_paused_grows_cex :
    pausedWorkState.pomodoro.paused = true ∧
    pausedWorkState.pomodoro.pausedElapsed = 10000 ∧
    getTaskTime 30000 "t1" pausedWorkState = 30000 ∧
    getTaskTime 31000 "t1" pausedWorkState = 31000 ∧
    getTaskTime 30000 "t1" pausedWorkState ≠
      taskLedgerSum "t1" pausedWorkState + pausedWorkState.pomodoro.pausedElapsed := by
  decide

/-- Claim C3 (amended): `stopPomodoro` appends exactly one entry iff the phase
is Work, the anchor is non-null, the target is set, and the *wall-clock* span
`now - anchor` is at least 5000 ms; the recorded duration is always
`now - anchor`.  The paused flag and `pausedElapsed` are ignored, so stopping
a paused session uses the wall-clock span since the anchor, not the frozen
elapsed value. -/
theorem stop_ledger_characterization (now : Int) (freshId : String) (s : EpochState) :
    (∀ a tid, s.pomodoro.phase = .work → s.pomodoro.sessionStart = some a →
      s.pomodoro.taskId = some tid → 5000 ≤ now - a →
      (stopPomodoro now freshId s).timeEntries =
        s.timeEntries ++ [{ id := freshId, taskId := tid, startedAt := a,
                            endedAt := now, duration := now - a }]) ∧
    (∀ a tid, s.pomodoro.phase = .work → s.pomodoro.sessionStart = some a →
      s.pomodoro.taskId = some tid → now - a < 5000 →
      (stopPomodoro now freshId s).timeEntries = s.timeEntries) ∧
    (s.pomodoro.phase ≠ .work ∨ s.pomodoro.sessionStart = none ∨
        s.pomodoro.taskId = none →
      (stopPomodoro now freshId s).timeEntries = s.timeEntries) :=
  ⟨fun a tid hw ha ht hd => stop_appends now freshId s a tid hw ha ht hd,
   fun a tid hw ha ht hd => stop_no_append_small now freshId s a tid hw ha ht hd,
   fun h => stop_no_append_other now freshId s h⟩

/-- Claim C3 witness: stopping the running session on "t1" at 6000 appends the
6000 ms entry; stopping it at 1000 appends nothing. -/
theorem stop_ledger_characterization_witness :
    (stopPomodoro 6000 "e1" runningWorkState).timeEntries =
      runningWorkState.timeEntries ++
        [{ id := "e1", taskId := "t1", startedAt := 0, endedAt := 6000,
           duration := 6000 - 0 }] ∧
    (stopPomodoro 1000 "e2" runningWorkState).timeEntries =
      runningWorkState.timeEntries :=
  ⟨(stop_ledger_characterization 6000 "e1" runningWorkState).1 0 "t1"
      (by decide) (by decide) (by decide) (by decide),
   (stop_ledger_characterization 1000 "e2" runningWorkState).2.1 0 "t1"
      (by decide) (by decide) (by decide) (by decide)⟩

/-- Claim C3 counterexample: a session paused at 1000 (frozen elapsed
1000 ms < 5000 ms) and stopped at 100000 nonetheless appends one entry, with
the wall-clock duration 100000 — the claim says the frozen `pausedElapsed`
must be used, which would append zero entries. -/
theorem stop_paused_wallclock_cex :
    earlyPausedState.pomodoro.paused = true ∧
    earlyPausedState.pomodoro.pausedElapsed = 1000 ∧
    earlyPausedState.pomodoro.pausedElapsed < 5000 ∧
    (stopPomodoro 100000 "e1" earlyPausedState).timeEntries =
      [{ id := "e1", taskId := "t1", startedAt := 0, endedAt := 100000,
         duration := 100000 }] := by
  decide

/-- Claim C6 (amended): every entry appended by `stopPomodoro` has duration at
least 5000 ms, but `completeWorkSession` performs no minimum-duration check,
so it can append entries of arbitrarily small duration when invoked with a
small elapsed time. -/
theorem stop_entries_min_duration (now : Int) (freshId : String) (s : EpochState)
    (e : TimeEntry) (he : e ∈ (stopPomodoro now freshId s).timeEntries) :
    e ∈ s.timeEntries ∨ 5000 ≤ e.duration := by
  obtain ⟨tasks, entries, p⟩ := s
  obtain ⟨ptid, pph, pss, psc, ppd, ppe⟩ := p
  cases pph <;> cases pss <;> cases ptid <;> simp_all [stopPomodoro]
  case work.some.some a tid =>
    by_cases hd : 5000 ≤ now - a
    · rw [if_pos hd] at he
      rcases List.mem_append.mp he with h | h
      · exact Or.inl h
      · right
        rw [List.mem_singleton.mp h]
        exact hd
    · rw [if_neg hd] at he
      exact Or.inl he

/-- Claim C6 witness: the minimum-duration bound applied to the entry produced
by stopping the running session on "t1" at 6000. -/
theorem stop_entries_min_duration_witness :
    ({ id := "e1", taskId := "t1", startedAt := 0, endedAt := 6000,
       duration := 6000 } : TimeEntry) ∈ (stopPomodoro 6000 "e1" runningWorkState).timeEntries ∧
    (({ id := "e1", taskId := "t1", startedAt := 0, endedAt := 6000,
        duration := 6000 } : TimeEntry) ∈ runningWorkState.timeEntries ∨
      5000 ≤ ({ id := "e1", taskId := "t1", startedAt := 0, endedAt := 6000,
                duration := 6000 } : TimeEntry).duration) :=
  ⟨by decide, stop_entries_min_duration 6000 "e1" runningWorkState _ (by decide)⟩

/-- Claim C6 counterexample: `completeWorkSession` invoked 1000 ms into a work
session on "t1" appends a ledger entry of duration 1000 ms, below the 5000 ms
minimum the claim asserts for every writer. -/
theorem completeWork_small_entry_cex :
    (completeWorkSession 1000 "e1" runningWorkState).timeEntries =
      [{ id := "e1", taskId := "t1", startedAt := 0, endedAt := 1000,
         duration := 1000 }] ∧
    ({ id := "e1", taskId := "t1", startedAt := 0, endedAt := 1000,
       duration := 1000 } : TimeEntry).duration < 5000 := by
  decide

/-- Claim C7 (amended): from an anchored Work state, `completeWorkSession`
transitions to Break with `sessionStart = none` (not `now()`; the break is
re-anchored later by `startBreak`/`skipBreak`), increments
`sessionsCompleted` by exactly 1, leaves `taskId` unchanged, appends no entry
when `taskId = none` (eye rest) and exactly one entry for the target
otherwise. -/
theorem completeWork_break_transition (now : Int) (freshId : String) (s : EpochState)
    (a : Int) (hw : s.pomodoro.phase = .work) (ha : s.pomodoro.sessionStart = some a) :
    (completeWorkSession now freshId s).pomodoro.phase = PomodoroPhase.«break» ∧
    (completeWorkSession now freshId s).pomodoro.sessionStart = none ∧
    (completeWorkSession now freshId s).pomodoro.sessionsCompleted =
      s.pomodoro.sessionsCompleted + 1 ∧
    (completeWorkSession now freshId s).pomodoro.taskId = s.pomodoro.taskId ∧
    (s.pomodoro.taskId = none →
      (completeWorkSession now freshId s).timeEntries = s.timeEntries) ∧
    (∀ tid, s.pomodoro.taskId = some tid →
      (completeWorkSession now freshId s).timeEntries =
        s.timeEntries ++ [{ id := freshId, taskId := tid, startedAt := a,
                            endedAt := now, duration := now - a }]) := by
  obtain ⟨tasks, entries, p⟩ := s
  obtain ⟨ptid, pph, pss, psc, ppd, ppe⟩ := p
  simp only at hw ha
  subst hw; subst ha
  refine ⟨rfl, rfl, rfl, rfl, ?_, ?_⟩
  · intro htid
    simp only at htid
    subst htid
    rfl
  · intro tid htid
    simp only at htid
    subst htid
    rfl

/-- Claim C7 witness: the transition applied to the eye-rest work session
anchored at 0, completed at 1500000 ms (25 minutes). -/
theorem completeWork_break_transition_witness :
    (completeWorkSession 1500000 "e1" eyeRestWorkState).pomodoro.phase =
      PomodoroPhase.«break» ∧
    (completeWorkSession 1500000 "e1" eyeRestWorkState).pomodoro.sessionsCompleted =
      eyeRestWorkState.pomodoro.sessionsCompleted + 1 ∧
    (completeWorkSession 1500000 "e1" eyeRestWorkState).timeEntries =
      eyeRestWorkState.timeEntries :=
  ⟨(completeWork_break_transition 1500000 "e1" eyeRestWorkState 0
      (by decide) (by decide)).1,
   (completeWork_break_transition 1500000 "e1" eyeRestWorkState 0
      (by decide) (by decide)).2.2.1,
   (completeWork_break_transition 1500000 "e1" eyeRestWorkState 0
      (by decide) (by decide)).2.2.2.2.1 (by decide)⟩

/-- Claim C7 counterexample: completing the eye-rest work session at 1500000
leaves the Break state with `sessionStart = none`, not `some 1500000` as the
claim's "anchor = now()" requires. -/
theorem completeWork_anchor_cex :
    (completeWorkSession 1500000 "e1" eyeRestWorkState).pomodoro.phase =
      PomodoroPhase.«break» ∧
    (completeWorkSession 1500000 "e1" eyeRestWorkState).pomodoro.sessionStart = none ∧
    (completeWorkSession 1500000 "e1" eyeRestWorkState).pomodoro.sessionStart ≠
      some 1500000 := by
  decide

/-- Claim C9: `startPomodoro` sets phase Work, anchor `now`, unpauses, zeroes
`pausedElapsed`, installs the new target, and preserves `sessionsCompleted`
(as well as the task list and the ledger). -/
theorem start_preserves_counter (now : Int) (taskId : Option String) (s : EpochState) :
    (startPomodoro now taskId s).pomodoro =
      { taskId := taskId, phase := .work, sessionStart := some now,
        sessionsCompleted := s.pomodoro.sessionsCompleted,
        paused := false, pausedElapsed := 0 } ∧
    (startPomodoro now taskId s).tasks = s.tasks ∧
    (startPomodoro now taskId s).timeEntries = s.timeEntries :=
  ⟨rfl, rfl, rfl⟩

/-- Claim C10: `completeWorkSession` is a no-op outside an anchored Work
phase; consequently applying it twice from an anchored Work state equals
applying it once, the counter rises by exactly 1, and at most one ledger
entry is appended. -/
theorem completeWork_guarded_noop (now now₂ : Int) (freshId freshId₂ : String)
    (s : EpochState) :
    (s.pomodoro.phase ≠ .work ∨ s.pomodoro.sessionStart = none →
      completeWorkSession now freshId s = s) ∧
    (s.pomodoro.phase = .work → s.pomodoro.sessionStart ≠ none →
      completeWorkSession now₂ freshId₂ (completeWorkSession now freshId s) =
        completeWorkSession now freshId s ∧
      (completeWorkSession now₂ freshId₂ (completeWorkSession now freshId s)).pomodoro.sessionsCompleted =
        s.pomodoro.sessionsCompleted + 1 ∧
      (completeWorkSession now₂ freshId₂ (completeWorkSession now freshId s)).timeEntries.length ≤
        s.timeEntries.length + 1) := by
  obtain ⟨tasks, entries, p⟩ := s
  obtain ⟨ptid, pph, pss, psc, ppd, ppe⟩ := p
  constructor
  · rintro (h | h)
    · cases pph <;> cases pss <;> simp_all [completeWorkSession]
    · simp only at h
      subst h
      cases pph <;> rfl
  · intro hw hss
    simp only at hw hss
    subst hw
    cases pss with
    | none => exact absurd rfl hss
    | some a =>
      refine ⟨rfl, rfl, ?_⟩
      cases ptid <;> simp [completeWorkSession]

/-- Claim C10 witness: the no-op applied to the empty idle store, and the
single-application bound applied to the running session on "t1". -/
theorem completeWork_guarded_noop_witness :
    completeWorkSession 1000 "e1" emptyState = emptyState ∧
    (completeWorkSession 2000 "e2" (completeWorkSession 1000 "e1" runningWorkState)).pomodoro.sessionsCompleted =
      runningWorkState.pomodoro.sessionsCompleted + 1 ∧
    (completeWorkSession 2000 "e2" (completeWorkSession 1000 "e1" runningWorkState)).timeEntries.length ≤
      runningWorkState.timeEntries.length + 1 :=
  ⟨(completeWork_guarded_noop 1000 2000 "e1" "e2" emptyState).1 (Or.inl (by decide)),
   ((completeWork_guarded_noop 1000 2000 "e1" "e2" runningWorkState).2
      (by decide) (by decide)).2.1,
   ((completeWork_guarded_noop 1000 2000 "e1" "e2" runningWorkState).2
      (by decide) (by decide)).2.2⟩

/-- Claim C4 (amended): in every reachable state, an Idle session is fully
reset (`sessionStart = none`, `paused = false`, `pausedElapsed = 0`,
`taskId = none`) and a Work session always has a non-null anchor.  The
claimed iff fails: `pausePomodoro` stores the frozen elapsed in
`pausedElapsed` but does not clear the anchor, and a Break state entered via
`completeWorkSession` has `sessionStart = none` until the break is
re-anchored. -/
theorem reachable_session_invariant (s : EpochState) (h : Reachable s) :
    (s.pomodoro.phase = .idle →
      s.pomodoro.sessionStart = none ∧ s.pomodoro.paused = false ∧
      s.pomodoro.pausedElapsed = 0 ∧ s.pomodoro.taskId = none) ∧
    (s.pomodoro.phase = .work → s.pomodoro.sessionStart ≠ none) := by
  induction h with
  | init tasks =>
      exact ⟨fun _ => ⟨rfl, rfl, rfl, rfl⟩, fun hw => by simp [initPomodoro] at hw⟩
  | start now tid s hs ih =>
      exact ⟨fun hidle => absurd hidle (by simp [startPomodoro]),
             fun _ => by simp [startPomodoro]⟩
  | pauseOrResume now s hs ih =>
      obtain ⟨ih1, ih2⟩ := ih
      by_cases hidle : s.pomodoro.phase = .idle
      · have hred : pausePomodoro now s = s := by simp [pausePomodoro, hidle]
        rw [hred]
        exact ⟨ih1, ih2⟩
      · by_cases hp : s.pomodoro.paused = true
        · have h1 : (pausePomodoro now s).pomodoro.phase = s.pomodoro.phase := by
            simp [pausePomodoro, hidle, hp]
          have h2 : (pausePomodoro now s).pomodoro.sessionStart =
              some (now - s.pomodoro.pausedElapsed) := by
            simp [pausePomodoro, hidle, hp]
          rw [h1, h2]
          exact ⟨fun hph => absurd hph hidle, fun _ => by simp⟩
        · have hp' : s.pomodoro.paused = false := by
            cases hpp : s.pomodoro.paused
            · rfl
            · exact absurd hpp hp
          have h1 : (pausePomodoro now s).pomodoro.phase = s.pomodoro.phase := by
            simp [pausePomodoro, hidle, hp']
          have h2 : (pausePomodoro now s).pomodoro.sessionStart =
              s.pomodoro.sessionStart := by
            simp [pausePomodoro, hidle, hp']
          rw [h1, h2]
          exact ⟨fun hph => absurd hph hidle, ih2⟩
  | stop now freshId s hs ih =>
      exact ⟨fun _ => ⟨rfl, rfl, rfl, rfl⟩, fun hw => absurd hw (by simp [stopPomodoro])⟩
  | completeWork now freshId s hs ih =>
      obtain ⟨ih1, ih2⟩ := ih
      obtain ⟨tasks, entries, p⟩ := s
      obtain ⟨ptid, pph, pss, psc, ppd, ppe⟩ := p
      cases pph <;> cases pss <;> simp_all [completeWorkSession]
  | startBreakStep now s hs ih =>
      exact ⟨fun hidle => absurd hidle (by simp [startBreak]),
             fun hw => absurd hw (by simp [startBreak])⟩
  | completeBreak now s hs ih =>
      exact ⟨fun hidle => absurd hidle (by simp [skipBreak]),
             fun _ => by simp [skipBreak]⟩

/-- Claim C4 witness: the invariant applied to the reachable state obtained by
starting a session on "t1" from the initial store. -/
theorem reachable_session_invariant_witness :
    ((startPomodoro 0 (some "t1") emptyState).pomodoro.phase = PomodoroPhase.idle →
      (startPomodoro 0 (some "t1") emptyState).pomodoro.sessionStart = none ∧
      (startPomodoro 0 (some "t1") emptyState).pomodoro.paused = false ∧
      (startPomodoro 0 (some "t1") emptyState).pomodoro.pausedElapsed = 0 ∧
      (startPomodoro 0 (some "t1") emptyState).pomodoro.taskId = none) ∧
    ((startPomodoro 0 (some "t1") emptyState).pomodoro.phase = PomodoroPhase.work →
      (startPomodoro 0 (some "t1") emptyState).pomodoro.sessionStart ≠ none) :=
  reachable_session_invariant _ (Reachable.start 0 (some "t1") emptyState (Reachable.init []))

/-- Claim C4 counterexample: the reachable state "start on t1 at 0, pause at
10000" is paused with the anchor still set to 0 (and the frozen elapsed in
`pausedElapsed`), so the claimed equivalence "anchor non-null iff phase in
Work or Break and not paused" fails on a reachable state. -/
theorem pause_keeps_anchor_cex :
    Reachable pausedWorkState ∧
    pausedWorkState.pomodoro.paused = true ∧
    pausedWorkState.pomodoro.phase = PomodoroPhase.work ∧
    pausedWorkState.pomodoro.sessionStart = some 0 ∧
    pausedWorkState.pomodoro.pausedElapsed = 10000 ∧
    ¬(pausedWorkState.pomodoro.sessionStart ≠ none ↔
      (pausedWorkState.pomodoro.phase = PomodoroPhase.work ∨
        pausedWorkState.pomodoro.phase = PomodoroPhase.«break») ∧
      pausedWorkState.pomodoro.paused = false) :=
  ⟨Reachable.pauseOrResume 10000 (startPomodoro 0 (some "t1") emptyState)
      (Reachable.start 0 (some "t1") emptyState (Reachable.init [])),
   by decide, by decide, by decide, by decide, by decide⟩

theorem sum_filter_or (p q : TimeEntry → Bool) (entries : List TimeEntry)
    (hdis : ∀ e, ¬(p e = true ∧ q e = true)) :
    ((entries.filter (fun e => p e || q e)).map (fun e => e.duration)).sum =
    ((entries.filter p).map (fun e => e.duration)).sum +
    ((entries.filter q).map (fun e => e.duration)).sum := by
  induction entries with
  | nil => simp
  | cons e rest ih =>
      cases hp : p e <;> cases hq : q e
      · simp [List.filter_cons, hp, hq, ih]
      · simp [List.filter_cons, hp, hq, ih, add_assoc, add_left_comm]
      · simp [List.filter_cons, hp, hq, ih, add_assoc, add_left_comm]
      · exact absurd ⟨hp, hq⟩ (hdis e)

theorem ledger_sum_over_ids (entries : List TimeEntry) (ids : List String)
    (hnd : ids.Nodup) :
    ((entries.filter (fun e => ids.contains e.taskId)).map (fun e => e.duration)).sum =
    (ids.map (fun tid =>
      ((entries.filter (fun e => e.taskId == tid)).map (fun e => e.duration)).sum)).sum := by
  induction ids with
  | nil => simp
  | cons tid ids ih =>
      obtain ⟨hnotin, hnd'⟩ := List.nodup_cons.mp hnd
      have hdis : ∀ e : TimeEntry,
          ¬((e.taskId == tid) = true ∧ ids.contains e.taskId = true) := by
        intro e h
        obtain ⟨hp, hq⟩ := h
        rw [beq_iff_eq] at hp
        rw [hp] at hq
        simp at hq
        exact hnotin hq
      have hpred : entries.filter (fun e => (tid :: ids).contains e.taskId) =
          entries.filter (fun e => (e.taskId == tid) || ids.contains e.taskId) :=
        List.filter_congr (fun e _ => by rw [List.contains_cons])
      rw [hpred,
        sum_filter_or (fun e => e.taskId == tid) (fun e => ids.contains e.taskId)
          entries hdis,
        ih hnd']
      simp

/-- Claim C5 (amended): `getProjectTime` sums only the ledger entries whose
task belongs to the project; it equals the sum of `getTaskTime` over the
project's tasks exactly when no anchored Work session targets one of those
tasks (given distinct task ids) — the in-flight elapsed time of a running
session is *not* included in the project total. -/
theorem getProjectTime_eq_sum_of_task_times (now : Int) (projectId : String)
    (s : EpochState)
    (hnd : ((s.tasks.filter (fun t => t.projectId == some projectId)).map
      (fun t => t.id)).Nodup)
    (hnf : ∀ t ∈ s.tasks, t.projectId = some projectId →
      s.pomodoro.phase ≠ .work ∨ s.pomodoro.taskId ≠ some t.id ∨
      s.pomodoro.sessionStart = none) :
    getProjectTime projectId s =
      ((s.tasks.filter (fun t => t.projectId == some projectId)).map
        (fun t => getTaskTime now t.id s)).sum := by
  have hmapeq :
      (s.tasks.filter (fun t => t.projectId == some projectId)).map
        (fun t => getTaskTime now t.id s) =
      (s.tasks.filter (fun t => t.projectId == some projectId)).map
        (fun t => taskLedgerSum t.id s) := by
    apply List.map_congr_left
    intro t ht
    have hmem := List.mem_filter.mp ht
    have hproj : t.projectId = some projectId := by
      have := hmem.2
      simpa using this
    exact getTaskTime_no_extra now t.id s (hnf t hmem.1 hproj)
  rw [hmapeq]
  have hcomp :
      (s.tasks.filter (fun t => t.projectId == some projectId)).map
        (fun t => taskLedgerSum t.id s) =
      ((s.tasks.filter (fun t => t.projectId == some projectId)).map
        (fun t => t.id)).map (fun tid => taskLedgerSum tid s) := by
    rw [List.map_map]
    rfl
  rw [hcomp]
  simp only [getProjectTime, taskLedgerSum]
  rw [foldl_duration_eq_sum]
  rw [ledger_sum_over_ids s.timeEntries
    ((s.tasks.filter (fun t => t.projectId == some projectId)).map (fun t => t.id)) hnd]
  simp

/-- Claim C5 witness: the equality applied to project "p1" with a single task
"t1", one 7000 ms ledger entry, and an idle session. -/
theorem getProjectTime_eq_sum_of_task_times_witness :
    getProjectTime "p1" projIdleState =
      ((projIdleState.tasks.filter (fun t => t.projectId == some "p1")).map
        (fun t => getTaskTime 30000 t.id projIdleState)).sum :=
  getProjectTime_eq_sum_of_task_times 30000 "p1" projIdleState (by decide)
    (by decide)

/-- Claim C5 counterexample: with a work session on project task "t1" running
for 10000 ms and an empty ledger, the project total is 0 while the sum of
`getTaskTime` over the project's tasks is 10000 — the claimed equality fails
whenever a session on a project task is in flight. -/
theorem getProjectTime_no_inflight_cex :
    getProjectTime "p1" projRunningState = 0 ∧
    ((projRunningState.tasks.filter (fun t => t.projectId == some "p1")).map
      (fun t => getTaskTime 10000 t.id projRunningState)).sum = 10000 ∧
    getProjectTime "p1" projRunningState ≠
      ((projRunningState.tasks.filter (fun t => t.projectId == some "p1")).map
        (fun t => getTaskTime 10000 t.id projRunningState)).sum := by
  decide

/-- A pause at `p` followed by a resume at `r`, applied to a running work
session anchored at `a`, yields a running work session anchored at
`a + (r - p)`; nothing else changes except `pausedElapsed`. -/
theorem pause_resume_step (p r : Int) (s : EpochState) (a : Int)
    (hw : s.pomodoro.phase = .work) (hp : s.pomodoro.paused = false)
    (ha : s.pomodoro.sessionStart = some a) :
    pausePomodoro r (pausePomodoro p s) =
      { s with pomodoro := { s.pomodoro with
          sessionStart := some (r - (p - a)), pausedElapsed := p - a } } := by
  obtain ⟨tasks, entries, pom⟩ := s
  obtain ⟨ptid, pph, pss, psc, ppd, ppe⟩ := pom
  simp only at hw hp ha
  subst hw; subst hp; subst ha
  simp [pausePomodoro]

theorem runToggles_running (ps : List (Int × Int)) :
    ∀ (s : EpochState) (a : Int),
      s.pomodoro.phase = .work → s.pomodoro.paused = false →
      s.pomodoro.sessionStart = some a →
      (runToggles s ps).pomodoro.phase = .work ∧
      (runToggles s ps).pomodoro.paused = false ∧
      (runToggles s ps).pomodoro.taskId = s.pomodoro.taskId ∧
      (runToggles s ps).pomodoro.sessionStart = some (a + gapSum ps) ∧
      (runToggles s ps).timeEntries = s.timeEntries ∧
      (runToggles s ps).tasks = s.tasks := by
  induction ps with
  | nil =>
      intro s a hw hp ha
      simp [runToggles, gapSum, ha, hw, hp]
  | cons pr rest ih =>
      intro s a hw hp ha
      obtain ⟨p, r⟩ := pr
      have hstep := pause_resume_step p r s a hw hp ha
      have hrun : runToggles s ((p, r) :: rest) =
          runToggles (pausePomodoro r (pausePomodoro p s)) rest := rfl
      rw [hrun, hstep]
      have hrec := ih { s with pomodoro := { s.pomodoro with
          sessionStart := some (r - (p - a)), pausedElapsed := p - a } }
        (r - (p - a)) hw hp rfl
      obtain ⟨h1, h2, h3, h4, h5, h6⟩ := hrec
      refine ⟨h1, h2, h3, ?_, h5, h6⟩
      rw [h4]
      have harith : r - (p - a) + gapSum rest = a + gapSum ((p, r) :: rest) := by
        simp [gapSum]
        ring
      rw [harith]

theorem activeTime_eq_span_sub_gaps (tStop : Int) (ps : List (Int × Int)) :
    ∀ t0 : Int, activeTime t0 tStop ps = tStop - t0 - gapSum ps := by
  induction ps with
  | nil => intro t0; simp [activeTime, gapSum]
  | cons pr rest ih =>
      intro t0
      obtain ⟨p, r⟩ := pr
      simp [activeTime, gapSum, ih r]
      ring

/-- Claim C8: pause/resume conserves elapsed time.  Starting a work session on
task `T` at `t0`, running any schedule of pause/resume pairs, and stopping at
`tStop`: just before the stop, `getTaskTime` returns the ledger sum plus the
total active (non-paused) time; the stop appends exactly one entry whose
duration is that active time (provided it reaches the 5000 ms minimum); and
afterwards `getTaskTime` returns the ledger sum plus the active time. -/
theorem pause_resume_conservation (s : EpochState) (T freshId : String)
    (t0 tStop : Int) (ps : List (Int × Int))
    (hth : 5000 ≤ activeTime t0 tStop ps) :
    getTaskTime tStop T (runToggles (startPomodoro t0 (some T) s) ps) =
      taskLedgerSum T s + activeTime t0 tStop ps ∧
    (stopPomodoro tStop freshId (runToggles (startPomodoro t0 (some T) s) ps)).timeEntries =
      s.timeEntries ++ [{ id := freshId, taskId := T, startedAt := t0 + gapSum ps,
                          endedAt := tStop, duration := activeTime t0 tStop ps }] ∧
    getTaskTime tStop T (stopPomodoro tStop freshId
        (runToggles (startPomodoro t0 (some T) s) ps)) =
      taskLedgerSum T s + activeTime t0 tStop ps := by
  have hstart := start_preserves_counter t0 (some T) s
  have hrun := runToggles_running ps (startPomodoro t0 (some T) s) t0
    (by rw [hstart.1]) (by rw [hstart.1]) (by rw [hstart.1])
  obtain ⟨h1, h2, h3, h4, h5, h6⟩ := hrun
  have htid : (runToggles (startPomodoro t0 (some T) s) ps).pomodoro.taskId = some T := by
    rw [h3, hstart.1]
  have hact : activeTime t0 tStop ps = tStop - (t0 + gapSum ps) := by
    rw [activeTime_eq_span_sub_gaps tStop ps t0]
    ring
  have hentries : (runToggles (startPomodoro t0 (some T) s) ps).timeEntries =
      s.timeEntries := by
    rw [h5, hstart.2.2]
  have hledger : taskLedgerSum T (runToggles (startPomodoro t0 (some T) s) ps) =
      taskLedgerSum T s :=
    taskLedgerSum_congr T _ _ hentries
  refine ⟨?_, ?_, ?_⟩
  · rw [getTaskTime_inflight tStop T _ (t0 + gapSum ps) h1 htid h4, hledger, hact]
  · rw [hact, stop_appends tStop freshId _ (t0 + gapSum ps) T h1 h4 htid
      (by rw [← hact]; exact hth), hentries]
  · have hstop := stop_appends tStop freshId
      (runToggles (startPomodoro t0 (some T) s) ps) (t0 + gapSum ps) T h1 h4 htid
      (by rw [← hact]; exact hth)
    have hidle : (stopPomodoro tStop freshId
        (runToggles (startPomodoro t0 (some T) s) ps)).pomodoro.phase = .idle := rfl
    rw [getTaskTime_no_extra tStop T _ (Or.inl (by rw [hidle]; decide))]
    rw [taskLedgerSum_append T (runToggles (startPomodoro t0 (some T) s) ps) _
      { id := freshId, taskId := T, startedAt := t0 + gapSum ps,
        endedAt := tStop, duration := tStop - (t0 + gapSum ps) } hstop rfl]
    rw [hledger, hact]

/-- Claim C8 witness: the concrete scenario — start on "T" at 0, pause at
10000, resume at 40000, stop at 55000 — yields one 25000 ms entry and
`getTaskTime` returns 25000 before and after the stop. -/
theorem pause_resume_conservation_witness :
    5000 ≤ activeTime 0 55000 [(10000, 40000)] ∧
    (getTaskTime 55000 "T" (runToggles (startPomodoro 0 (some "T") emptyState)
        [(10000, 40000)]) =
      taskLedgerSum "T" emptyState + activeTime 0 55000 [(10000, 40000)] ∧
    (stopPomodoro 55000 "e1" (runToggles (startPomodoro 0 (some "T") emptyState)
        [(10000, 40000)])).timeEntries =
      emptyState.timeEntries ++
        [{ id := "e1", taskId := "T", startedAt := 0 + gapSum [(10000, 40000)],
           endedAt := 55000, duration := activeTime 0 55000 [(10000, 40000)] }] ∧
    getTaskTime 55000 "T" (stopPomodoro 55000 "e1"
        (runToggles (startPomodoro 0 (some "T") emptyState) [(10000, 40000)])) =
      taskLedgerSum "T" emptyState + activeTime 0 55000 [(10000, 40000)]) :=
  ⟨by decide,
   pause_resume_conservation emptyState "T" "e1" 0 55000 [(10000, 40000)] (by decide)⟩

end Calendar
